import Mathlib

/-!
Shallow embedding of `src/ViT.py` (a Vision Transformer in PyTorch).

Tensors are modelled as a record of shape components and a total data
function on natural-number indices (values at out-of-range indices are
junk, as we only ever reason about in-range indices or about the shape
components).  Floating-point values are idealised as real numbers.
Stochastic dropout is modelled by an explicit mask argument (the ambient
randomness); dropout is the identity outside training mode or when the
probability is 0, mirroring `nn.Dropout`.  The one explicit `raise` in
the source (`Attention.forward`, the `dim != self.dim` check) and the
implicit `RuntimeError` of an impossible `reshape` are modelled with
`Except`.
-/

/-- A rank-2 tensor: shape `(n0, n1)` with total data function. -/
structure T2 where
  n0 : ℕ
  n1 : ℕ
  dat : ℕ → ℕ → ℝ

/-- A rank-3 tensor: shape `(n0, n1, n2)` with total data function. -/
structure T3 where
  n0 : ℕ
  n1 : ℕ
  n2 : ℕ
  dat : ℕ → ℕ → ℕ → ℝ

/-- A rank-4 tensor: shape `(n0, n1, n2, n3)` with total data function. -/
structure T4 where
  n0 : ℕ
  n1 : ℕ
  n2 : ℕ
  n3 : ℕ
  dat : ℕ → ℕ → ℕ → ℕ → ℝ

/-- `nn.Linear(inF, outF)` applied over the last axis of a rank-3 tensor:
`y[b,t,o] = Σ_i w[o,i] * x[b,t,i] + bias[o]` (PyTorch stores the weight as
`(out_features, in_features)`). -/
noncomputable def linear3 (inF outF : ℕ) (w : ℕ → ℕ → ℝ) (bias : ℕ → ℝ)
    (x : T3) : T3 :=
  ⟨x.n0, x.n1, outF, fun b t o =>
    (∑ i ∈ Finset.range inF, w o i * x.dat b t i) + bias o⟩

/-- `nn.Linear` over the last axis of a rank-2 tensor. -/
noncomputable def linear2 (inF outF : ℕ) (w : ℕ → ℕ → ℝ) (bias : ℕ → ℝ)
    (x : T2) : T2 :=
  ⟨x.n0, outF, fun b o =>
    (∑ i ∈ Finset.range inF, w o i * x.dat b i) + bias o⟩

/-- Spatial output size of a strided convolution along one axis
(`(H - kernel) / stride + 1`, all divisions truncating). -/
def convOutSize (H k s : ℕ) : ℕ := (H - k) / s + 1

/-- `nn.Conv2d(cin, cout, kernel_size=k, stride=s)` (no padding, no
dilation): `y[b,o,i,j] = Σ_{c,u,v} w[o,c,u,v] * x[b,c,i*s+u,j*s+v] + bias[o]`. -/
noncomputable def conv2d (cout k s : ℕ) (w : ℕ → ℕ → ℕ → ℕ → ℝ)
    (bias : ℕ → ℝ) (x : T4) : T4 :=
  ⟨x.n0, cout, convOutSize x.n2 k s, convOutSize x.n3 k s, fun b o i j =>
    (∑ c ∈ Finset.range x.n1, ∑ u ∈ Finset.range k, ∑ v ∈ Finset.range k,
      w o c u v * x.dat b c (i * s + u) (j * s + v)) + bias o⟩

/-- `x.flatten(2)` on a rank-4 tensor: merge the last two axes; the
contiguous layout makes the last original axis fastest (row-major). -/
def flatten2 (x : T4) : T3 :=
  ⟨x.n0, x.n1, x.n2 * x.n3, fun b c e => x.dat b c (e / x.n3) (e % x.n3)⟩

/-- `x.transpose(1, 2)` on a rank-3 tensor. -/
def transpose12 (x : T3) : T3 :=
  ⟨x.n0, x.n2, x.n1, fun b i j => x.dat b j i⟩

/-- `x.transpose(-2, -1)` on a rank-4 tensor. -/
def transposeLast2 (x : T4) : T4 :=
  ⟨x.n0, x.n1, x.n3, x.n2, fun a b i j => x.dat a b j i⟩

/-- Batched matrix multiplication `x @ y` over the last two axes of rank-4
tensors (leading batch axes assumed to coincide). -/
noncomputable def matmul4 (x y : T4) : T4 :=
  ⟨x.n0, x.n1, x.n2, y.n3, fun a b i j =>
    ∑ d ∈ Finset.range x.n3, x.dat a b i d * y.dat a b d j⟩

/-- Multiplication of a rank-4 tensor by a scalar on the right
(`(q @ k_t) * self.scale`). -/
def smul4 (x : T4) (c : ℝ) : T4 :=
  ⟨x.n0, x.n1, x.n2, x.n3, fun a b i j => x.dat a b i j * c⟩

/-- Elementwise addition of rank-3 tensors (shape taken from the first
argument; the residual additions in the source always add equal shapes). -/
def addT3 (x y : T3) : T3 :=
  ⟨x.n0, x.n1, x.n2, fun b t d => x.dat b t d + y.dat b t d⟩

/-- Elementwise map over a rank-3 tensor. -/
def mapT3 (f : ℝ → ℝ) (x : T3) : T3 :=
  ⟨x.n0, x.n1, x.n2, fun b t d => f (x.dat b t d)⟩

/-- Maximum of `f` over `0, …, n-1` (value for `n = 0` is irrelevant junk). -/
noncomputable def rowMax (n : ℕ) (f : ℕ → ℝ) : ℝ :=
  (List.range n).foldl (fun a i => max a (f i)) (f 0)

/-- Numerically-stable softmax of `f` over positions `0, …, n-1`: the
per-row maximum is subtracted before exponentiating, as `Tensor.softmax`
does internally. -/
noncomputable def softmaxF (n : ℕ) (f : ℕ → ℝ) (j : ℕ) : ℝ :=
  Real.exp (f j - rowMax n f) /
    ∑ i ∈ Finset.range n, Real.exp (f i - rowMax n f)

/-- `x.softmax(dim=-1)` on a rank-4 tensor. -/
noncomputable def softmaxLast (x : T4) : T4 :=
  ⟨x.n0, x.n1, x.n2, x.n3, fun a b i j =>
    softmaxF x.n3 (fun j2 => x.dat a b i j2) j⟩

/-- `nn.Dropout(p)` on a rank-3 tensor.  Outside training mode, or when
`p = 0`, it is the identity; otherwise each element is multiplied by an
externally drawn mask (Bernoulli keep-indicators) and rescaled by
`1 / (1 - p)`. -/
noncomputable def dropout3 (p : ℝ) (training : Bool) (mask : ℕ → ℕ → ℕ → ℝ)
    (x : T3) : T3 :=
  ⟨x.n0, x.n1, x.n2,
    if training = true ∧ p ≠ 0 then
      fun b t d => x.dat b t d * mask b t d / (1 - p)
    else x.dat⟩

/-- `nn.Dropout(p)` on a rank-4 tensor. -/
noncomputable def dropout4 (p : ℝ) (training : Bool)
    (mask : ℕ → ℕ → ℕ → ℕ → ℝ) (x : T4) : T4 :=
  ⟨x.n0, x.n1, x.n2, x.n3,
    if training = true ∧ p ≠ 0 then
      fun a b i j => x.dat a b i j * mask a b i j / (1 - p)
    else x.dat⟩

/-- The Gauss error function, `erf x = 2/√π · ∫_0^x exp(-t²) dt`. -/
noncomputable def erf (x : ℝ) : ℝ :=
  (2 / Real.sqrt Real.pi) * ∫ t in (0:ℝ)..x, Real.exp (-(t ^ 2))

/-- `nn.GELU()` (exact form): `gelu x = x/2 · (1 + erf (x / √2))`. -/
noncomputable def gelu (x : ℝ) : ℝ :=
  x / 2 * (1 + erf (x / Real.sqrt 2))

/-- Per-token mean over the feature axis (`LayerNorm` statistics). -/
noncomputable def lnMean (D : ℕ) (x : T3) (b t : ℕ) : ℝ :=
  (∑ i ∈ Finset.range D, x.dat b t i) / D

/-- Per-token biased variance over the feature axis. -/
noncomputable def lnVar (D : ℕ) (x : T3) (b t : ℕ) : ℝ :=
  (∑ i ∈ Finset.range D, (x.dat b t i - lnMean D x b t) ^ 2) / D

/-- `nn.LayerNorm(D)` (default `eps = 1e-5`) with learnable scale `g` and
shift `c`. -/
noncomputable def layerNorm (D : ℕ) (g c : ℕ → ℝ) (x : T3) : T3 :=
  ⟨x.n0, x.n1, x.n2, fun b t d =>
    g d * ((x.dat b t d - lnMean D x b t) /
      Real.sqrt (lnVar D x b t + 1 / 100000)) + c d⟩

/-! ## Module configurations and parameters -/

/-- Exceptions raised at module construction: Python raises
`ZeroDivisionError` in `Attention.__init__` when `head_dim = dim // n_heads`
is 0 (the scale `head_dim ** -0.5` cannot be formed). -/
inductive InitErr where
  | zeroDivision
deriving DecidableEq

/-- Exceptions raised inside `Attention.forward`: the explicit
`raise ValueError` of the `dim != self.dim` check, and the `RuntimeError`
of a `reshape` whose element counts disagree. -/
inductive AErr where
  | dimMismatch
  | shapeMismatch
deriving DecidableEq

/-- Configuration computed by `Attention.__init__`. -/
structure AttnCfg where
  dim : ℕ
  nHeads : ℕ
  headDim : ℕ
  scale : ℝ
  qkvBias : Bool
  attnP : ℝ
  projP : ℝ

/-- The record `Attention.__init__` builds when it succeeds:
`head_dim = dim // n_heads`, `scale = head_dim ** -0.5`. -/
noncomputable def attnCfgOf (dim nHeads : ℕ) (qkvBias : Bool)
    (attnP projP : ℝ) : AttnCfg :=
  ⟨dim, nHeads, dim / nHeads, (Real.sqrt ((dim / nHeads : ℕ) : ℝ))⁻¹,
    qkvBias, attnP, projP⟩

/-- `Attention.__init__`: fails (ZeroDivisionError from `0 ** -0.5`, or
from `dim // 0`) exactly when `dim // n_heads = 0`; otherwise records the
configuration.  Note: it performs NO divisibility validation. -/
noncomputable def attentionInit (dim nHeads : ℕ) (qkvBias : Bool)
    (attnP projP : ℝ) : Except InitErr AttnCfg :=
  if dim / nHeads = 0 then .error .zeroDivision
  else .ok (attnCfgOf dim nHeads qkvBias attnP projP)

/-- Learnable parameters of an `Attention` module. -/
structure AttnParams where
  qkvW : ℕ → ℕ → ℝ
  qkvB : ℕ → ℝ
  projW : ℕ → ℕ → ℝ
  projB : ℕ → ℝ

/-- Configuration of an `MLP` module. -/
structure MLPCfg where
  inF : ℕ
  hidF : ℕ
  outF : ℕ
  p : ℝ

/-- Python's `a or b` for an optional numeric argument: `None` and `0` are
falsy and fall back to the default. -/
def pyOr (o : Option ℕ) (d : ℕ) : ℕ :=
  match o with
  | none => d
  | some v => if v = 0 then d else v

/-- `MLP.__init__`: `out_features = out_features or in_features`,
`hidden_features = hidden_features or in_features`. -/
def mlpCfgOf (inF : ℕ) (hidF outF : Option ℕ) (p : ℝ) : MLPCfg :=
  ⟨inF, pyOr hidF inF, pyOr outF inF, p⟩

/-- Learnable parameters of an `MLP` module. -/
structure MLPParams where
  w1 : ℕ → ℕ → ℝ
  b1 : ℕ → ℝ
  w2 : ℕ → ℕ → ℝ
  b2 : ℕ → ℝ

/-- Python `int()` truncation (towards zero) on a rational. -/
def pyInt (q : ℚ) : ℤ := if 0 ≤ q then ⌊q⌋ else ⌈q⌉

/-- Configuration computed by `Block.__init__`. -/
structure BlockCfg where
  dim : ℕ
  attnCfg : AttnCfg
  mlpCfg : MLPCfg

/-- The record `Block.__init__` builds when it succeeds: the attention
sublayer gets `attn_p`/`proj_p`, the MLP is constructed as
`MLP(in_features=dim, hidden_features=int(dim * mlp_ratio), out_features=dim)`
— the dropout probability `p` is NOT forwarded, so the MLP keeps its
default `p=0`. -/
noncomputable def blockCfgOf (dim nHeads : ℕ) (mlpRatio : ℚ)
    (qkvBias : Bool) (p attnP projP : ℝ) : BlockCfg :=
  ⟨dim, attnCfgOf dim nHeads qkvBias attnP projP,
    mlpCfgOf dim (some (Int.toNat (pyInt ((dim : ℚ) * mlpRatio)))) (some dim) 0⟩

/-- `Block.__init__`: propagates the construction failure of its
`Attention` sublayer. -/
noncomputable def blockInit (dim nHeads : ℕ) (mlpRatio : ℚ)
    (qkvBias : Bool) (p attnP projP : ℝ) : Except InitErr BlockCfg :=
  if dim / nHeads = 0 then .error .zeroDivision
  else .ok (blockCfgOf dim nHeads mlpRatio qkvBias p attnP projP)

/-- Learnable parameters of a `Block` (LayerNorm scales/shifts, attention,
MLP), each owned by the block. -/
structure BlockParams where
  norm1G : ℕ → ℝ
  norm1B : ℕ → ℝ
  attn : AttnParams
  norm2G : ℕ → ℝ
  norm2B : ℕ → ℝ
  mlp : MLPParams

/-- Learnable parameters of `PatchEmbedding` (the `Conv2d` projection). -/
structure PEParams where
  w : ℕ → ℕ → ℕ → ℕ → ℝ
  b : ℕ → ℝ

/-- Configuration computed by `VisionTransformer.__init__`:
`n_patches = (img_size // patch_size) ** 2` is recorded in
`PatchEmbedding.__init__` (and reused for the positional embedding's
length `n_patches + 1`). -/
structure VTCfg where
  imgSize : ℕ
  patchSize : ℕ
  inChannels : ℕ
  nClasses : ℕ
  embedDim : ℕ
  depth : ℕ
  nPatches : ℕ
  p : ℝ
  blockCfg : BlockCfg

/-- The record `VisionTransformer.__init__` builds when it succeeds. -/
noncomputable def vtCfgOf (imgSize patchSize inChannels nClasses embedDim
    depth nHeads : ℕ) (mlpRatio : ℚ) (qkvBias : Bool) (p attnP projP : ℝ) :
    VTCfg :=
  ⟨imgSize, patchSize, inChannels, nClasses, embedDim, depth,
    (imgSize / patchSize) ^ 2, p,
    blockCfgOf embedDim nHeads mlpRatio qkvBias p attnP projP⟩

/-- `VisionTransformer.__init__`: all `depth` blocks share the same
configuration; construction fails only where `Attention.__init__` does. -/
noncomputable def vitInit (imgSize patchSize inChannels nClasses embedDim
    depth nHeads : ℕ) (mlpRatio : ℚ) (qkvBias : Bool) (p attnP projP : ℝ) :
    Except InitErr VTCfg :=
  if embedDim / nHeads = 0 then .error .zeroDivision
  else .ok (vtCfgOf imgSize patchSize inChannels nClasses embedDim depth
    nHeads mlpRatio qkvBias p attnP projP)

/-- Learnable parameters of the full model.  `cls` is the `(1,1,D)`
classification token (a function of the feature index), `pos` the
`(1, n_patches+1, D)` positional embedding (position, feature). -/
structure VTParams where
  pe : PEParams
  cls : ℕ → ℝ
  pos : ℕ → ℕ → ℝ
  blocks : List BlockParams
  normG : ℕ → ℝ
  normB : ℕ → ℝ
  headW : ℕ → ℕ → ℝ
  headB : ℕ → ℝ

/-- Dropout masks consumed by one block during one forward call (attention
weights, output projection, and the two applications of the MLP's dropout). -/
structure BlockNoise where
  attnMask : ℕ → ℕ → ℕ → ℕ → ℝ
  projMask : ℕ → ℕ → ℕ → ℝ
  mlpMask1 : ℕ → ℕ → ℕ → ℝ
  mlpMask2 : ℕ → ℕ → ℕ → ℝ

/-- All dropout masks consumed during one forward call of the model. -/
structure VTNoise where
  posMask : ℕ → ℕ → ℕ → ℝ
  blockNoise : ℕ → BlockNoise

/-! ## Forward computations -/

/-- `PatchEmbedding.forward`: convolution with `kernel = stride =
patch_size`, then `flatten(2)` and `transpose(1, 2)`. -/
noncomputable def patchEmbedForward (patchSize embedDim : ℕ)
    (pr : PEParams) (x : T4) : T3 :=
  transpose12 (flatten2 (conv2d embedDim patchSize patchSize pr.w pr.b x))

/-- The effective bias of the packed q/k/v projection (`nn.Linear` with
`bias=qkv_bias`; a disabled bias contributes 0). -/
def qkvBiasEff (cfg : AttnCfg) (pr : AttnParams) : ℕ → ℝ :=
  fun o => if cfg.qkvBias then pr.qkvB o else 0

/-- `self.qkv(x)`: the packed projection to width `3 * dim`. -/
noncomputable def attnQKV (cfg : AttnCfg) (pr : AttnParams) (x : T3) : T3 :=
  linear3 cfg.dim (3 * cfg.dim) pr.qkvW (qkvBiasEff cfg pr) x

/-- `q = qkv.reshape(B, T, 3, n_heads, head_dim).permute(2,0,3,1,4)[0]`:
for the contiguous layout, entry `(b, h, t, d)` of `q` is entry
`(b, t, h*head_dim + d)` of the packed projection. -/
def attnQ (cfg : AttnCfg) (qkv : T3) : T4 :=
  ⟨qkv.n0, cfg.nHeads, qkv.n1, cfg.headDim, fun b h t d =>
    qkv.dat b t (h * cfg.headDim + d)⟩

/-- `k`: component 1 of the reshaped/permuted packed projection. -/
def attnK (cfg : AttnCfg) (qkv : T3) : T4 :=
  ⟨qkv.n0, cfg.nHeads, qkv.n1, cfg.headDim, fun b h t d =>
    qkv.dat b t (cfg.nHeads * cfg.headDim + (h * cfg.headDim + d))⟩

/-- `v`: component 2 of the reshaped/permuted packed projection. -/
def attnV (cfg : AttnCfg) (qkv : T3) : T4 :=
  ⟨qkv.n0, cfg.nHeads, qkv.n1, cfg.headDim, fun b h t d =>
    qkv.dat b t (2 * (cfg.nHeads * cfg.headDim) + (h * cfg.headDim + d))⟩

/-- `dp = (q @ k_t) * self.scale`: the scaled score tensor. -/
noncomputable def attnScores (cfg : AttnCfg) (pr : AttnParams) (x : T3) :
    T4 :=
  smul4 (matmul4 (attnQ cfg (attnQKV cfg pr x))
    (transposeLast2 (attnK cfg (attnQKV cfg pr x)))) cfg.scale

/-- `attn = dp.softmax(dim=-1)`: the attention weights. -/
noncomputable def attnWeights (cfg : AttnCfg) (pr : AttnParams) (x : T3) :
    T4 :=
  softmaxLast (attnScores cfg pr x)

/-- The body of `Attention.forward` after its checks: dropout on the
weights, weighted sum over `v`, head reassembly
(`transpose(1,2).reshape(B, T, dim)`), output projection, dropout. -/
noncomputable def attnCore (cfg : AttnCfg) (pr : AttnParams)
    (training : Bool) (am : ℕ → ℕ → ℕ → ℕ → ℝ) (pm : ℕ → ℕ → ℕ → ℝ)
    (x : T3) : T3 :=
  let wa := matmul4 (dropout4 cfg.attnP training am (attnWeights cfg pr x))
    (attnV cfg (attnQKV cfg pr x))
  let flat : T3 := ⟨wa.n0, wa.n2, cfg.dim, fun b t e =>
    wa.dat b (e / cfg.headDim) t (e % cfg.headDim)⟩
  dropout3 cfg.projP training pm
    (linear3 cfg.dim cfg.dim pr.projW pr.projB flat)

/-- `Attention.forward`: first the explicit `dim != self.dim` check
(`raise ValueError`), then the `reshape` to
`(B, T, 3, n_heads, head_dim)`, which raises a `RuntimeError` when the
element counts disagree; otherwise the attention body. -/
noncomputable def attentionForward (cfg : AttnCfg) (pr : AttnParams)
    (training : Bool) (am : ℕ → ℕ → ℕ → ℕ → ℝ) (pm : ℕ → ℕ → ℕ → ℝ)
    (x : T3) : Except AErr T3 :=
  if x.n2 ≠ cfg.dim then .error .dimMismatch
  else if x.n0 * x.n1 * (3 * cfg.dim) ≠
      x.n0 * x.n1 * 3 * cfg.nHeads * cfg.headDim then .error .shapeMismatch
  else .ok (attnCore cfg pr training am pm x)

/-- `MLP.forward`: `fc1`, GELU, dropout, `fc2`, dropout (the same dropout
module is applied twice, hence two independent mask draws). -/
noncomputable def mlpForward (cfg : MLPCfg) (pr : MLPParams)
    (training : Bool) (m1 m2 : ℕ → ℕ → ℕ → ℝ) (x : T3) : T3 :=
  dropout3 cfg.p training m2
    (linear3 cfg.hidF cfg.outF pr.w2 pr.b2
      (dropout3 cfg.p training m1
        (mapT3 gelu
          (linear3 cfg.inF cfg.hidF pr.w1 pr.b1 x))))

/-- `Block.forward`: `x = x + attn(norm1(x)); x = x + mlp(norm2(x))`. -/
noncomputable def blockForward (bc : BlockCfg) (pr : BlockParams)
    (training : Bool) (ns : BlockNoise) (x : T3) : Except AErr T3 :=
  (attentionForward bc.attnCfg pr.attn training ns.attnMask ns.projMask
      (layerNorm bc.dim pr.norm1G pr.norm1B x)).map
    (fun a =>
      let x1 := addT3 x a
      addT3 x1 (mlpForward bc.mlpCfg pr.mlp training ns.mlpMask1 ns.mlpMask2
        (layerNorm bc.dim pr.norm2G pr.norm2B x1)))

/-- `for block in self.blocks: x = block(x)` — sequential application;
the counter `i` selects each block's dropout masks. -/
noncomputable def blocksForward (bc : BlockCfg) :
    List BlockParams → (ℕ → BlockNoise) → ℕ → Bool → T3 → Except AErr T3
  | [], _, _, _, x => .ok x
  | pr :: rest, ns, i, training, x =>
    (blockForward bc pr training (ns i) x).bind
      (fun y => blocksForward bc rest ns (i + 1) training y)

/-- `torch.cat((cls_token, x), dim=1)` with the broadcast `(B,1,D)`
classification token: position 0 is the token, position `t+1` is patch `t`. -/
def prependCls (cls : ℕ → ℝ) (x : T3) : T3 :=
  ⟨x.n0, 1 + x.n1, x.n2, fun b t d =>
    if t = 0 then cls d else x.dat b (t - 1) d⟩

/-- `x = x + self.pos_embed`: elementwise addition of the positional
embedding, broadcast over the batch axis. -/
def addPos (pos : ℕ → ℕ → ℝ) (x : T3) : T3 :=
  ⟨x.n0, x.n1, x.n2, fun b t d => x.dat b t d + pos t d⟩

/-- `x[:, 0]`: select the classification-token position. -/
def select0 (x : T3) : T2 :=
  ⟨x.n0, x.n2, fun b d => x.dat b 0 d⟩

/-- `VisionTransformer.forward`: patch embedding, prepend the cls token,
add the positional embedding, dropout, the encoder blocks in sequence,
final LayerNorm, select position 0, linear head. -/
noncomputable def vitForward (cfg : VTCfg) (pr : VTParams)
    (training : Bool) (ns : VTNoise) (x : T4) : Except AErr T2 :=
  (blocksForward cfg.blockCfg pr.blocks ns.blockNoise 0 training
      (dropout3 cfg.p training ns.posMask
        (addPos pr.pos
          (prependCls pr.cls
            (patchEmbedForward cfg.patchSize cfg.embedDim pr.pe x))))).map
    (fun y =>
      linear2 cfg.embedDim cfg.nClasses pr.headW pr.headB
        (select0 (layerNorm cfg.embedDim pr.normG pr.normB y)))

/-! ## Helper lemmas -/

/-- Softmax rows sum to 1 (the subtracted row maximum cancels). -/
theorem softmaxF_row_sum (n : ℕ) (hn : 0 < n) (f : ℕ → ℝ) :
    ∑ j ∈ Finset.range n, softmaxF n f j = 1 := by
  unfold softmaxF
  rw [← Finset.sum_div]
  refine div_self ?_
  have h : 0 < ∑ i ∈ Finset.range n, Real.exp (f i - rowMax n f) :=
    Finset.sum_pos (fun i _ => Real.exp_pos _)
      (Finset.nonempty_range_iff.mpr hn.ne')
  exact h.ne'

/-- Dropout is the identity outside training mode. -/
theorem dropout3_eval (p : ℝ) (m : ℕ → ℕ → ℕ → ℝ) (x : T3) :
    dropout3 p false m x = x := by
  simp [dropout3]

/-- Rank-4 dropout is the identity outside training mode. -/
theorem dropout4_eval (p : ℝ) (m : ℕ → ℕ → ℕ → ℕ → ℝ) (x : T4) :
    dropout4 p false m x = x := by
  simp [dropout4]

/-- Dropout with probability 0 is the identity in every mode. -/
theorem dropout3_zero (tr : Bool) (m : ℕ → ℕ → ℕ → ℝ) (x : T3) :
    dropout3 0 tr m x = x := by
  simp [dropout3]

/-- When the input's feature dimension matches and `n_heads * head_dim`
equals the dimension, `Attention.forward` succeeds with the body's value. -/
theorem attentionForward_ok (cfg : AttnCfg) (pr : AttnParams) (tr : Bool)
    (am : ℕ → ℕ → ℕ → ℕ → ℝ) (pm : ℕ → ℕ → ℕ → ℝ) (x : T3)
    (h2 : x.n2 = cfg.dim) (hdh : cfg.nHeads * cfg.headDim = cfg.dim) :
    attentionForward cfg pr tr am pm x = .ok (attnCore cfg pr tr am pm x) := by
  have hc1 : ¬ (x.n2 ≠ cfg.dim) := by simp [h2]
  have hc2 : ¬ (x.n0 * x.n1 * (3 * cfg.dim) ≠
      x.n0 * x.n1 * 3 * cfg.nHeads * cfg.headDim) := by
    rw [not_ne_iff, ← hdh]; ring
  rw [attentionForward, if_neg hc1, if_neg hc2]

/-- `Block.forward` succeeds and preserves all three shape components. -/
theorem blockForward_ok (bc : BlockCfg) (pr : BlockParams) (tr : Bool)
    (ns : BlockNoise) (x : T3) (h2 : x.n2 = bc.attnCfg.dim)
    (hdh : bc.attnCfg.nHeads * bc.attnCfg.headDim = bc.attnCfg.dim) :
    ∃ y, blockForward bc pr tr ns x = .ok y ∧
      y.n0 = x.n0 ∧ y.n1 = x.n1 ∧ y.n2 = x.n2 := by
  rw [blockForward, attentionForward_ok bc.attnCfg pr.attn tr ns.attnMask
    ns.projMask (layerNorm bc.dim pr.norm1G pr.norm1B x) h2 hdh]
  exact ⟨_, rfl, rfl, rfl, rfl⟩

/-- The encoder stack succeeds and preserves all three shape components. -/
theorem blocksForward_ok (bc : BlockCfg)
    (hdh : bc.attnCfg.nHeads * bc.attnCfg.headDim = bc.attnCfg.dim)
    (ps : List BlockParams) :
    ∀ (ns : ℕ → BlockNoise) (i : ℕ) (tr : Bool) (x : T3),
      x.n2 = bc.attnCfg.dim →
      ∃ y, blocksForward bc ps ns i tr x = .ok y ∧
        y.n0 = x.n0 ∧ y.n1 = x.n1 ∧ y.n2 = x.n2 := by
  induction ps with
  | nil => exact fun ns i tr x _ => ⟨x, rfl, rfl, rfl, rfl⟩
  | cons pr rest ih =>
    intro ns i tr x h2
    obtain ⟨y, hy, h0, h1, h2'⟩ := blockForward_ok bc pr tr (ns i) x h2 hdh
    obtain ⟨z, hz, g0, g1, g2⟩ := ih ns (i + 1) tr y (h2'.trans h2)
    refine ⟨z, ?_, g0.trans h0, g1.trans h1, g2.trans h2'⟩
    rw [blocksForward, hy]
    exact hz

/-- Convolution with `kernel = stride = p` covers `H / p` positions per
axis when `0 < p ≤ H` (trailing pixels are silently dropped). -/
theorem convOut_eq_div (H p : ℕ) (hp : 0 < p) (hle : p ≤ H) :
    convOutSize H p p = H / p := by
  have h2 : H / p = (H - p) / p + 1 := by
    conv_lhs => rw [← Nat.sub_add_cancel hle]
    rw [Nat.add_div_right _ hp]
  rw [convOutSize, h2]

/-- The full forward pass succeeds with output shape `(B, n_classes)`
whenever `n_heads` divides `embed_dim`. -/
theorem vitForward_ok_shape (imgSize patchSize inChannels nClasses embedDim
    depth nHeads : ℕ) (mlpRatio : ℚ) (qkvB : Bool) (p ap pp : ℝ)
    (pr : VTParams) (tr : Bool) (ns : VTNoise) (x : T4)
    (hheads : nHeads ∣ embedDim) :
    ∃ y, vitForward (vtCfgOf imgSize patchSize inChannels nClasses embedDim
        depth nHeads mlpRatio qkvB p ap pp) pr tr ns x = .ok y ∧
      y.n0 = x.n0 ∧ y.n1 = nClasses := by
  have hdh : nHeads * (embedDim / nHeads) = embedDim :=
    Nat.mul_div_cancel' hheads
  obtain ⟨y, hy, h0, _, _⟩ :=
    blocksForward_ok (blockCfgOf embedDim nHeads mlpRatio qkvB p ap pp)
      hdh pr.blocks ns.blockNoise 0 tr
      (dropout3 p tr ns.posMask
        (addPos pr.pos
          (prependCls pr.cls
            (patchEmbedForward patchSize embedDim pr.pe x)))) rfl
  refine ⟨linear2 embedDim nClasses pr.headW pr.headB
    (select0 (layerNorm embedDim pr.normG pr.normB y)), ?_, h0, rfl⟩
  rw [vitForward]
  simp only [vtCfgOf]
  rw [hy]
  rfl

/-! ## Claims -/

/-- C1: for every batch size `B` and every valid configuration
(`image_size` divisible by `patch_size`, `embed_dim` divisible by
`n_heads`), `VisionTransformer.forward` on an input of shape
`(B, in_channels, image_size, image_size)` succeeds and returns a tensor
of shape exactly `(B, n_classes)`. -/
theorem vit_output_shape_c1 (imgSize patchSize inChannels nClasses embedDim
    depth nHeads : ℕ) (mlpRatio : ℚ) (qkvB : Bool) (p ap pp : ℝ)
    (pr : VTParams) (tr : Bool) (ns : VTNoise) (B : ℕ) (x : T4)
    (hpatch : patchSize ∣ imgSize) (hp : 0 < patchSize)
    (hheads : nHeads ∣ embedDim) (hh : 0 < nHeads)
    (hx0 : x.n0 = B) (hx1 : x.n1 = inChannels)
    (hx2 : x.n2 = imgSize) (hx3 : x.n3 = imgSize) :
    ∃ y, vitForward (vtCfgOf imgSize patchSize inChannels nClasses embedDim
        depth nHeads mlpRatio qkvB p ap pp) pr tr ns x = .ok y ∧
      y.n0 = B ∧ y.n1 = nClasses := by
  obtain ⟨y, hy, h0, h1⟩ := vitForward_ok_shape imgSize patchSize inChannels
    nClasses embedDim depth nHeads mlpRatio qkvB p ap pp pr tr ns x hheads
  exact ⟨y, hy, h0.trans hx0, h1⟩

/-- C1 witness: a concrete valid configuration and input. -/
theorem vit_output_shape_c1_witness :
    (2 ∣ 4 ∧ 0 < 2 ∧ 2 ∣ 4 ∧ 0 < (2:ℕ)) ∧
      ∃ y, vitForward (vtCfgOf 4 2 3 10 4 1 2 4 true 0 0 0)
          ⟨⟨fun _ _ _ _ => 0, fun _ => 0⟩, fun _ => 0, fun _ _ => 0, [],
            fun _ => 0, fun _ => 0, fun _ _ => 0, fun _ => 0⟩ false
          ⟨fun _ _ _ => 0, fun _ =>
            ⟨fun _ _ _ _ => 0, fun _ _ _ => 0, fun _ _ _ => 0,
              fun _ _ _ => 0⟩⟩
          (T4.mk 1 3 4 4 fun _ _ _ _ => 0) = .ok y ∧
        y.n0 = 1 ∧ y.n1 = 10 :=
  ⟨⟨by decide, by decide, by decide, by decide⟩,
    vit_output_shape_c1 4 2 3 10 4 1 2 4 true 0 0 0
      ⟨⟨fun _ _ _ _ => 0, fun _ => 0⟩, fun _ => 0, fun _ _ => 0, [],
        fun _ => 0, fun _ => 0, fun _ _ => 0, fun _ => 0⟩ false
      ⟨fun _ _ _ => 0, fun _ =>
        ⟨fun _ _ _ _ => 0, fun _ _ _ => 0, fun _ _ _ => 0, fun _ _ _ => 0⟩⟩
      1 (T4.mk 1 3 4 4 fun _ _ _ _ => 0)
      (by decide) (by decide) (by decide) (by decide) rfl rfl rfl rfl⟩

/-- C2: `Attention.forward` returns the configuration-mismatch error
(`raise ValueError`) exactly when the last dimension of its rank-3 input
differs from the configured dimension; the check precedes the q/k/v
projection, so on a mismatch no output value is produced for any
parameters or data. -/
theorem attention_dim_check_c2 (cfg : AttnCfg) (pr : AttnParams)
    (tr : Bool) (am : ℕ → ℕ → ℕ → ℕ → ℝ) (pm : ℕ → ℕ → ℕ → ℝ) (x : T3) :
    attentionForward cfg pr tr am pm x = .error .dimMismatch ↔
      x.n2 ≠ cfg.dim := by
  rw [attentionForward]
  split_ifs with h1 h2 <;> simp [h1]

/-- C3 counterexample: constructing `Attention` with `dim = 10`,
`n_heads = 3` (not a divisor) raises nothing: it succeeds, recording
`head_dim = 10 // 3 = 3`. -/
theorem attention_init_no_validation_c3 :
    attentionInit 10 3 true 0 0 = .ok (attnCfgOf 10 3 true 0 0) ∧
      (attnCfgOf 10 3 true 0 0).headDim = 3 ∧ ¬ (3 ∣ 10) :=
  ⟨by norm_num [attentionInit], rfl, by decide⟩

/-- C3 (amended): constructing with `embed_dim` not divisible by
`n_heads` raises no error whenever `0 < n_heads ≤ embed_dim`; the module
silently records the floor value `head_dim = embed_dim // n_heads`. -/
theorem attention_init_silent_c3 (dim nH : ℕ) (qkvB : Bool) (ap pp : ℝ)
    (h1 : 0 < nH) (h2 : nH ≤ dim) :
    attentionInit dim nH qkvB ap pp = .ok (attnCfgOf dim nH qkvB ap pp) ∧
      (attnCfgOf dim nH qkvB ap pp).headDim = dim / nH := by
  refine ⟨?_, rfl⟩
  rw [attentionInit, if_neg (Nat.div_pos h2 h1).ne']

/-- C3 witness for the amended claim. -/
theorem attention_init_silent_c3_witness :
    0 < 3 ∧ 3 ≤ 10 ∧
      attentionInit 10 3 false 1 1 = .ok (attnCfgOf 10 3 false 1 1) :=
  ⟨by decide, by decide,
    (attention_init_silent_c3 10 3 false 1 1 (by decide) (by decide)).1⟩

/-- C4: inside `Attention.forward` the attention weights are the
numerically-stable softmax (per-row maximum subtracted before
exponentiating) over the last axis of the scaled score tensor
`(q @ k_t) * head_dim ** -0.5`; for every batch element, head and query
position the weights across the key axis sum to exactly 1 (the floating
tolerance of the spec is exact over ℝ). -/
theorem attention_softmax_rows_c4 (D nH : ℕ) (qkvB : Bool) (ap pp : ℝ)
    (pr : AttnParams) (x : T3) (hT : 0 < x.n1) :
    let cfg := attnCfgOf D nH qkvB ap pp
    attnWeights cfg pr x =
      softmaxLast (smul4 (matmul4 (attnQ cfg (attnQKV cfg pr x))
        (transposeLast2 (attnK cfg (attnQKV cfg pr x)))) cfg.scale) ∧
    (∀ b h i j, (attnWeights cfg pr x).dat b h i j =
      Real.exp ((attnScores cfg pr x).dat b h i j -
          rowMax x.n1 (fun j2 => (attnScores cfg pr x).dat b h i j2)) /
        ∑ j2 ∈ Finset.range x.n1,
          Real.exp ((attnScores cfg pr x).dat b h i j2 -
            rowMax x.n1 (fun j3 => (attnScores cfg pr x).dat b h i j3))) ∧
    (∀ b h i, ∑ j ∈ Finset.range x.n1,
      (attnWeights cfg pr x).dat b h i j = 1) := by
  refine ⟨rfl, fun b h i j => rfl, fun b h i => ?_⟩
  exact softmaxF_row_sum x.n1 hT
    (fun j2 => (attnScores (attnCfgOf D nH qkvB ap pp) pr x).dat b h i j2)

/-- C4 witness: a concrete attention input with two tokens. -/
theorem attention_softmax_rows_c4_witness :
    0 < (T3.mk 1 2 2 fun _ _ _ => 0).n1 ∧
      ∑ j ∈ Finset.range (T3.mk 1 2 2 fun _ _ _ => 0).n1,
        (attnWeights (attnCfgOf 2 1 true 0 0)
          ⟨fun _ _ => 0, fun _ => 0, fun _ _ => 0, fun _ => 0⟩
          (T3.mk 1 2 2 fun _ _ _ => 0)).dat 0 0 0 j = 1 :=
  ⟨by decide,
    (attention_softmax_rows_c4 2 1 true 0 0
      ⟨fun _ _ => 0, fun _ => 0, fun _ _ => 0, fun _ => 0⟩
      (T3.mk 1 2 2 fun _ _ _ => 0) (by decide)).2.2 0 0 0⟩

/-- C5: for every input of shape `(B, T, D)` with `D` the configured
dimension and `D` divisible by `n_heads`, `Attention.forward`,
`MLP.forward` (as configured inside a block, `out_features = dim`) and
`Block.forward` each return a tensor of the same shape, so the token
sequence length is unchanged across the whole encoder stack. -/
theorem shape_preservation_c5 (D nH : ℕ) (ratio : ℚ) (qkvB : Bool)
    (p ap pp : ℝ) (apr : AttnParams) (mpr : MLPParams) (bpr : BlockParams)
    (tr : Bool) (am : ℕ → ℕ → ℕ → ℕ → ℝ) (pm m1 m2 : ℕ → ℕ → ℕ → ℝ)
    (bn : BlockNoise) (ns : ℕ → BlockNoise) (x : T3)
    (hdvd : nH ∣ D) (hx : x.n2 = D) :
    let bc := blockCfgOf D nH ratio qkvB p ap pp
    (∃ y, attentionForward bc.attnCfg apr tr am pm x = .ok y ∧
      y.n0 = x.n0 ∧ y.n1 = x.n1 ∧ y.n2 = x.n2) ∧
    ((mlpForward bc.mlpCfg mpr tr m1 m2 x).n0 = x.n0 ∧
      (mlpForward bc.mlpCfg mpr tr m1 m2 x).n1 = x.n1 ∧
      (mlpForward bc.mlpCfg mpr tr m1 m2 x).n2 = x.n2) ∧
    (∃ y, blockForward bc bpr tr bn x = .ok y ∧
      y.n0 = x.n0 ∧ y.n1 = x.n1 ∧ y.n2 = x.n2) ∧
    (∀ ps i, ∃ y, blocksForward bc ps ns i tr x = .ok y ∧
      y.n1 = x.n1) := by
  intro bc
  have hdh : bc.attnCfg.nHeads * bc.attnCfg.headDim = bc.attnCfg.dim :=
    Nat.mul_div_cancel' hdvd
  have h2 : x.n2 = bc.attnCfg.dim := hx
  refine ⟨⟨_, attentionForward_ok bc.attnCfg apr tr am pm x h2 hdh,
    rfl, rfl, hx.symm⟩, ⟨rfl, rfl, ?_⟩, blockForward_ok bc bpr tr bn x h2 hdh,
    fun ps i => ?_⟩
  · show (if D = 0 then D else D) = x.n2
    rw [ite_self]
    exact hx.symm
  · obtain ⟨y, hy, _, h1, _⟩ := blocksForward_ok bc hdh ps ns i tr x h2
    exact ⟨y, hy, h1⟩

/-- C5 witness: a concrete divisible configuration. -/
theorem shape_preservation_c5_witness :
    ((2:ℕ) ∣ 4 ∧ (T3.mk 1 3 4 fun _ _ _ => 0).n2 = 4) ∧
      ∃ y, blockForward (blockCfgOf 4 2 4 true 0 0 0)
          ⟨fun _ => 0, fun _ => 0,
            ⟨fun _ _ => 0, fun _ => 0, fun _ _ => 0, fun _ => 0⟩,
            fun _ => 0, fun _ => 0,
            ⟨fun _ _ => 0, fun _ => 0, fun _ _ => 0, fun _ => 0⟩⟩ false
          ⟨fun _ _ _ _ => 0, fun _ _ _ => 0, fun _ _ _ => 0, fun _ _ _ => 0⟩
          (T3.mk 1 3 4 fun _ _ _ => 0) = .ok y ∧
        y.n0 = (T3.mk 1 3 4 fun _ _ _ => 0).n0 ∧
        y.n1 = (T3.mk 1 3 4 fun _ _ _ => 0).n1 ∧
        y.n2 = (T3.mk 1 3 4 fun _ _ _ => 0).n2 :=
  ⟨⟨by decide, by decide⟩,
    (shape_preservation_c5 4 2 4 true 0 0 0
      ⟨fun _ _ => 0, fun _ => 0, fun _ _ => 0, fun _ => 0⟩
      ⟨fun _ _ => 0, fun _ => 0, fun _ _ => 0, fun _ => 0⟩
      ⟨fun _ => 0, fun _ => 0,
        ⟨fun _ _ => 0, fun _ => 0, fun _ _ => 0, fun _ => 0⟩,
        fun _ => 0, fun _ => 0,
        ⟨fun _ _ => 0, fun _ => 0, fun _ _ => 0, fun _ => 0⟩⟩ false
      (fun _ _ _ _ => 0) (fun _ _ _ => 0) (fun _ _ _ => 0) (fun _ _ _ => 0)
      ⟨fun _ _ _ _ => 0, fun _ _ _ => 0, fun _ _ _ => 0, fun _ _ _ => 0⟩
      (fun _ => ⟨fun _ _ _ _ => 0, fun _ _ _ => 0, fun _ _ _ => 0,
        fun _ _ _ => 0⟩)
      (T3.mk 1 3 4 fun _ _ _ => 0) (by decide) rfl).2.2.1⟩

/-- C6: on an input of shape `(B, C, image_size, image_size)` with
`0 < patch_size ≤ image_size`, `PatchEmbedding.forward` returns shape
`(B, (image_size // patch_size)², embed_dim)`, and the entry for
row-major tile `(i, j)` is the shared linear (convolutional) projection
of the non-overlapping `patch_size × patch_size` tile at offset
`(i·patch_size, j·patch_size)`. -/
theorem patch_embedding_tiles_c6 (patchSize embedDim imgSize : ℕ)
    (pe : PEParams) (x : T4) (hp : 0 < patchSize) (hle : patchSize ≤ imgSize)
    (hx2 : x.n2 = imgSize) (hx3 : x.n3 = imgSize) :
    let y := patchEmbedForward patchSize embedDim pe x
    let g := imgSize / patchSize
    (y.n0 = x.n0 ∧ y.n1 = g ^ 2 ∧ y.n2 = embedDim) ∧
    (∀ b i j e, i < g → j < g →
      y.dat b (i * g + j) e =
        (∑ c ∈ Finset.range x.n1, ∑ u ∈ Finset.range patchSize,
          ∑ v ∈ Finset.range patchSize,
            pe.w e c u v * x.dat b c (i * patchSize + u) (j * patchSize + v))
          + pe.b e) := by
  intro y g
  have hcg : convOutSize x.n3 patchSize patchSize = g := by
    rw [hx3]; exact convOut_eq_div imgSize patchSize hp hle
  have hg : 0 < g := Nat.div_pos hle hp
  constructor
  · refine ⟨rfl, ?_, rfl⟩
    show convOutSize x.n2 patchSize patchSize *
      convOutSize x.n3 patchSize patchSize = g ^ 2
    rw [hx2, hx3, convOut_eq_div imgSize patchSize hp hle, sq]
  · intro b i j e hi hj
    show (conv2d embedDim patchSize patchSize pe.w pe.b x).dat b e
      ((i * g + j) / convOutSize x.n3 patchSize patchSize)
      ((i * g + j) % convOutSize x.n3 patchSize patchSize) = _
    have hdiv : (i * g + j) / g = i := by
      rw [mul_comm, Nat.mul_add_div hg, Nat.div_eq_of_lt hj, add_zero]
    have hmod : (i * g + j) % g = j := by
      rw [mul_comm, Nat.mul_add_mod, Nat.mod_eq_of_lt hj]
    rw [hcg, hdiv, hmod]
    rfl

/-- C6 witness: a 4×4 image cut into 2×2 tiles. -/
theorem patch_embedding_tiles_c6_witness :
    (0 < 2 ∧ 2 ≤ 4) ∧
      ((patchEmbedForward 2 3 ⟨fun _ _ _ _ => 0, fun _ => 0⟩
          (T4.mk 1 3 4 4 fun _ _ _ _ => 0)).n0 =
        (T4.mk 1 3 4 4 fun _ _ _ _ => 0).n0 ∧
      (patchEmbedForward 2 3 ⟨fun _ _ _ _ => 0, fun _ => 0⟩
          (T4.mk 1 3 4 4 fun _ _ _ _ => 0)).n1 = (4 / 2) ^ 2 ∧
      (patchEmbedForward 2 3 ⟨fun _ _ _ _ => 0, fun _ => 0⟩
          (T4.mk 1 3 4 4 fun _ _ _ _ => 0)).n2 = 3) :=
  ⟨⟨by decide, by decide⟩,
    (patch_embedding_tiles_c6 2 3 4 ⟨fun _ _ _ _ => 0, fun _ => 0⟩
      (T4.mk 1 3 4 4 fun _ _ _ _ => 0) (by decide) (by decide) rfl rfl).1⟩

/-- C7: `VisionTransformer.forward` is exactly the ordered composition:
patch embedding, prepend the broadcast classification token at position 0
(patch `t` moves to position `t+1`), add the positional embedding
elementwise exactly once (broadcast over the batch), dropout, the encoder
blocks in sequence, final normalization, selection of position 0, linear
head. -/
theorem vit_composition_c7 (cfg : VTCfg) (pr : VTParams) (tr : Bool)
    (ns : VTNoise) (x : T4) :
    let s1 := patchEmbedForward cfg.patchSize cfg.embedDim pr.pe x
    let s2 := prependCls pr.cls s1
    let s3 := addPos pr.pos s2
    (∀ b d, s2.dat b 0 d = pr.cls d) ∧
    (∀ b t d, s2.dat b (t + 1) d = s1.dat b t d) ∧
    (∀ b t d, s3.dat b t d = s2.dat b t d + pr.pos t d) ∧
    vitForward cfg pr tr ns x =
      (blocksForward cfg.blockCfg pr.blocks ns.blockNoise 0 tr
          (dropout3 cfg.p tr ns.posMask s3)).map
        (fun z => linear2 cfg.embedDim cfg.nClasses pr.headW pr.headB
          (select0 (layerNorm cfg.embedDim pr.normG pr.normB z))) := by
  refine ⟨fun b d => rfl, fun b t d => ?_, fun b t d => rfl, rfl⟩
  simp [prependCls]

/-- C8: when `image_size` is not divisible by `patch_size` (with
`0 < patch_size ≤ image_size`), model construction nevertheless
succeeds, `PatchEmbedding` still produces a sequence of length
`(image_size // patch_size)²` (silent truncation), and the forward pass
raises no shape or configuration error. -/
theorem silent_truncation_c8 (imgSize patchSize inChannels nClasses
    embedDim depth nHeads : ℕ) (mlpRatio : ℚ) (qkvB : Bool) (p ap pp : ℝ)
    (pr : VTParams) (tr : Bool) (ns : VTNoise) (B : ℕ) (x : T4)
    (hp : 0 < patchSize) (hle : patchSize ≤ imgSize)
    (hnd : ¬ patchSize ∣ imgSize)
    (hheads : nHeads ∣ embedDim) (hh : 0 < nHeads) (he : 0 < embedDim)
    (hx0 : x.n0 = B) (hx2 : x.n2 = imgSize) (hx3 : x.n3 = imgSize) :
    vitInit imgSize patchSize inChannels nClasses embedDim depth nHeads
        mlpRatio qkvB p ap pp =
      .ok (vtCfgOf imgSize patchSize inChannels nClasses embedDim depth
        nHeads mlpRatio qkvB p ap pp) ∧
    (patchEmbedForward patchSize embedDim pr.pe x).n1 =
      (imgSize / patchSize) ^ 2 ∧
    ∃ y, vitForward (vtCfgOf imgSize patchSize inChannels nClasses embedDim
        depth nHeads mlpRatio qkvB p ap pp) pr tr ns x = .ok y ∧
      y.n0 = B ∧ y.n1 = nClasses := by
  refine ⟨?_, ?_, ?_⟩
  · rw [vitInit,
      if_neg (Nat.div_pos (Nat.le_of_dvd he hheads) hh).ne']
  · show convOutSize x.n2 patchSize patchSize *
      convOutSize x.n3 patchSize patchSize = (imgSize / patchSize) ^ 2
    rw [hx2, hx3, convOut_eq_div imgSize patchSize hp hle, sq]
  · obtain ⟨y, hy, h0, h1⟩ := vitForward_ok_shape imgSize patchSize
      inChannels nClasses embedDim depth nHeads mlpRatio qkvB p ap pp
      pr tr ns x hheads
    exact ⟨y, hy, h0.trans hx0, h1⟩

/-- C8 witness: a 5×5 image with patch size 2 (5 is not divisible by 2). -/
theorem silent_truncation_c8_witness :
    (0 < 2 ∧ 2 ≤ 5 ∧ ¬ (2 ∣ 5) ∧ (1:ℕ) ∣ 2 ∧ 0 < 1 ∧ 0 < (2:ℕ)) ∧
      (patchEmbedForward 2 2 (VTParams.mk ⟨fun _ _ _ _ => 0, fun _ => 0⟩
          (fun _ => 0) (fun _ _ => 0) [] (fun _ => 0) (fun _ => 0)
          (fun _ _ => 0) (fun _ => 0)).pe
        (T4.mk 1 3 5 5 fun _ _ _ _ => 0)).n1 = (5 / 2) ^ 2 :=
  ⟨⟨by decide, by decide, by decide, by decide, by decide, by decide⟩,
    (silent_truncation_c8 5 2 3 10 2 1 1 4 true 0 0 0
      (VTParams.mk ⟨fun _ _ _ _ => 0, fun _ => 0⟩ (fun _ => 0)
        (fun _ _ => 0) [] (fun _ => 0) (fun _ => 0) (fun _ _ => 0)
        (fun _ => 0)) false
      ⟨fun _ _ _ => 0, fun _ => ⟨fun _ _ _ _ => 0, fun _ _ _ => 0,
        fun _ _ _ => 0, fun _ _ _ => 0⟩⟩ 1
      (T4.mk 1 3 5 5 fun _ _ _ _ => 0)
      (by decide) (by decide) (by decide) (by decide) (by decide)
      (by decide) rfl rfl rfl).2.1⟩

/-- The attention body outside training mode ignores the dropout masks. -/
theorem attnCore_noise (cfg : AttnCfg) (pr : AttnParams)
    (am am' : ℕ → ℕ → ℕ → ℕ → ℝ) (pm pm' : ℕ → ℕ → ℕ → ℝ) (x : T3) :
    attnCore cfg pr false am pm x = attnCore cfg pr false am' pm' x := by
  simp only [attnCore, dropout3_eval, dropout4_eval]

/-- `Attention.forward` outside training mode ignores the dropout masks. -/
theorem attentionForward_noise (cfg : AttnCfg) (pr : AttnParams)
    (am am' : ℕ → ℕ → ℕ → ℕ → ℝ) (pm pm' : ℕ → ℕ → ℕ → ℝ) (x : T3) :
    attentionForward cfg pr false am pm x =
      attentionForward cfg pr false am' pm' x := by
  rw [attentionForward, attentionForward]
  split_ifs
  · rfl
  · rfl
  · exact congrArg Except.ok (attnCore_noise cfg pr am am' pm pm' x)

/-- `MLP.forward` outside training mode ignores the dropout masks. -/
theorem mlpForward_noise (cfg : MLPCfg) (pr : MLPParams)
    (m1 m2 m1' m2' : ℕ → ℕ → ℕ → ℝ) (x : T3) :
    mlpForward cfg pr false m1 m2 x = mlpForward cfg pr false m1' m2' x := by
  simp only [mlpForward, dropout3_eval]

/-- `Block.forward` outside training mode ignores the dropout masks. -/
theorem blockForward_noise (bc : BlockCfg) (pr : BlockParams)
    (ns ns' : BlockNoise) (x : T3) :
    blockForward bc pr false ns x = blockForward bc pr false ns' x := by
  rw [blockForward, blockForward,
    attentionForward_noise bc.attnCfg pr.attn ns.attnMask ns'.attnMask
      ns.projMask ns'.projMask (layerNorm bc.dim pr.norm1G pr.norm1B x)]
  cases attentionForward bc.attnCfg pr.attn false ns'.attnMask ns'.projMask
      (layerNorm bc.dim pr.norm1G pr.norm1B x) with
  | error e => rfl
  | ok a =>
    refine congrArg Except.ok ?_
    show addT3 (addT3 x a)
        (mlpForward bc.mlpCfg pr.mlp false ns.mlpMask1 ns.mlpMask2
          (layerNorm bc.dim pr.norm2G pr.norm2B (addT3 x a))) =
      addT3 (addT3 x a)
        (mlpForward bc.mlpCfg pr.mlp false ns'.mlpMask1 ns'.mlpMask2
          (layerNorm bc.dim pr.norm2G pr.norm2B (addT3 x a)))
    rw [mlpForward_noise bc.mlpCfg pr.mlp ns.mlpMask1 ns.mlpMask2
      ns'.mlpMask1 ns'.mlpMask2]

/-- The encoder stack outside training mode ignores all dropout masks
(and the mask counter). -/
theorem blocksForward_noise (bc : BlockCfg) (ps : List BlockParams) :
    ∀ (ns ns' : ℕ → BlockNoise) (i i' : ℕ) (x : T3),
      blocksForward bc ps ns i false x = blocksForward bc ps ns' i' false x := by
  induction ps with
  | nil => exact fun ns ns' i i' x => rfl
  | cons pr rest ih =>
    intro ns ns' i i' x
    rw [blocksForward, blocksForward,
      blockForward_noise bc pr (ns i) (ns' i') x]
    cases blockForward bc pr false (ns' i') x with
    | error e => rfl
    | ok y => exact ih ns ns' (i + 1) (i' + 1) y

/-- C9: with dropout inactive (inference mode), `VisionTransformer.forward`
is a pure function of the input and parameters: its result does not
depend on the ambient dropout randomness, so two evaluations on the same
input and parameter values produce equal outputs (parameters are never
written — the embedding of every forward function only reads them). -/
theorem vit_pure_inference_c9 (cfg : VTCfg) (pr : VTParams)
    (ns1 ns2 : VTNoise) (x : T4) :
    vitForward cfg pr false ns1 x = vitForward cfg pr false ns2 x := by
  rw [vitForward, vitForward, dropout3_eval, dropout3_eval,
    blocksForward_noise cfg.blockCfg pr.blocks ns1.blockNoise ns2.blockNoise
      0 0]

/-- C10: `Block.__init__` builds its MLP without forwarding any dropout
probability, so for every choice of the constructor arguments `p`,
`attn_p`, `proj_p` the MLP's dropout probability is 0 and the dropout
after each feed-forward linear layer is the identity even in training
mode (the MLP output never depends on its dropout masks); only the
positional, attention-weight and output-projection dropouts carry the
configured probabilities. -/
theorem mlp_dropout_unconfigurable_c10 (imgSize patchSize inChannels
    nClasses dim depth nH : ℕ) (ratio : ℚ) (qkvB : Bool) (p ap pp : ℝ) :
    (blockCfgOf dim nH ratio qkvB p ap pp).mlpCfg.p = 0 ∧
    (vtCfgOf imgSize patchSize inChannels nClasses dim depth nH ratio
      qkvB p ap pp).blockCfg.mlpCfg.p = 0 ∧
    (∀ (tr : Bool) (m : ℕ → ℕ → ℕ → ℝ) (x : T3), dropout3 0 tr m x = x) ∧
    (∀ (mpr : MLPParams) (tr : Bool) (m1 m2 m1' m2' : ℕ → ℕ → ℕ → ℝ)
      (x : T3),
      mlpForward (blockCfgOf dim nH ratio qkvB p ap pp).mlpCfg mpr tr
          m1 m2 x =
        mlpForward (blockCfgOf dim nH ratio qkvB p ap pp).mlpCfg mpr tr
          m1' m2' x) ∧
    ((blockCfgOf dim nH ratio qkvB p ap pp).attnCfg.attnP = ap ∧
      (blockCfgOf dim nH ratio qkvB p ap pp).attnCfg.projP = pp ∧
      (vtCfgOf imgSize patchSize inChannels nClasses dim depth nH ratio
        qkvB p ap pp).p = p) := by
  refine ⟨rfl, rfl, dropout3_zero, ?_, rfl, rfl, rfl⟩
  intro mpr tr m1 m2 m1' m2' x
  show mlpForward (mlpCfgOf dim _ _ 0) mpr tr m1 m2 x =
    mlpForward (mlpCfgOf dim _ _ 0) mpr tr m1' m2' x
  simp only [mlpForward, mlpCfgOf, dropout3_zero]
